import Mathlib

/-!
Verification of the S6 exporter (`src/openrct2/rct2/S6Exporter.cpp`).

The development shallowly embeds the exporter's data flow: machine
integers become `Nat` (with explicit `% 2^w` where the C code narrows or
wraps), fixed-capacity legacy tables become total functions or lists of
slots, and the orchestration of `Save` / `Export` becomes pure functions
over the values the C code reads.  External collaborators that are not
part of this translation unit (the stream, the Sawyer chunk codec, the
`ror32` utility, header/location constants from other headers) are
modelled from the specification's description of their interfaces; each
such definition carries a doc comment saying so.
-/

namespace S6

/-! ## Shared constants (values from the RCT12/RCT2 limit headers) -/

/-- Capacity of the legacy ride-measurement table. -/
def RCT12_RIDE_MEASUREMENT_MAX_ITEMS : Nat := 8

/-- Number of ride slots in the legacy park. -/
def RCT12_MAX_RIDES_IN_PARK : Nat := 255

/-- Number of peep-spawn slots in the legacy format. -/
def RCT12_MAX_PEEP_SPAWNS : Nat := 2

/-- Number of park-entrance slots in the legacy format. -/
def RCT12_MAX_PARK_ENTRANCES : Nat := 4

/-- Number of stations per ride in the legacy format. -/
def RCT12_MAX_STATIONS_PER_RIDE : Nat := 4

/-- Largest inversion count representable in the packed inversions field. -/
def RCT12_MAX_INVERSIONS : Nat := 31

/-- Largest golf-hole count representable in the packed inversions field. -/
def RCT12_MAX_GOLF_HOLES : Nat := 31

/-- Modelled from the spec: sentinel ride type for an unused ride slot
(`RIDE_TYPE_NULL` from `Ride.h`, which is outside `src/`). -/
def RIDE_TYPE_NULL : Nat := 255

/-- Modelled from the spec: the mini-golf ride type id (`RIDE_TYPE_MINI_GOLF`
from `Ride.h`, outside `src/`; only its identity is used by the exporter). -/
def RIDE_TYPE_MINI_GOLF : Nat := 26

/-- Modelled from the spec: undefined peep-spawn coordinate sentinel
(`PEEP_SPAWN_UNDEFINED`, an all-ones 16-bit marker). -/
def PEEP_SPAWN_UNDEFINED : Nat := 0xFFFF

/-- Modelled from the spec: the null location sentinel (`LOCATION_NULL`,
the 16-bit pattern 0x8000 read as a signed value). -/
def LOCATION_NULL : Int := -32768

/-- Modelled from the spec: undefined packed-tile sentinel
(`RCT_XY8_UNDEFINED`, an all-ones 16-bit marker). -/
def RCT_XY8_UNDEFINED : Nat := 0xFFFF

/-- 2^32, the modulus of the 32-bit arithmetic used by the exporter. -/
def two32 : Nat := 4294967296

/-! ## Integrity hash (`S6Exporter::GetLoanHash`)

The C routine works on `int32_t`; we embed its two's-complement bit
pattern as a `Nat` below `2^32` and make the wrap-around explicit. -/

/-- 32-bit wrapping subtraction on bit patterns. -/
def sub32 (a b : Nat) : Nat := (a + two32 - b % two32) % two32

/-- 32-bit wrapping addition on bit patterns. -/
def add32 (a b : Nat) : Nat := (a + b) % two32

/-- Modelled from the spec: `ror32`, 32-bit rotate right (from `Util.h`,
outside `src/`).  For `x < 2^32` and `0 < n < 32` the rotation
`(x >> n) | (x << (32-n))` equals this arithmetic form, because the two
operands of the bitwise-or have no bits in common. -/
def ror32 (x n : Nat) : Nat := x % two32 / 2 ^ n + x % 2 ^ n * 2 ^ (32 - n)

/-- `S6Exporter::GetLoanHash`: start from the constant seed `0x70093A`,
subtract `initialCash`, rotate right 5, subtract `bankLoan`, rotate
right 7, add `maxBankLoan`, rotate right 3. -/
def GetLoanHash (initialCash bankLoan maxBankLoan : Nat) : Nat :=
  let v0 : Nat := 0x70093A
  let v1 := ror32 (sub32 v0 initialCash) 5
  let v2 := ror32 (sub32 v1 bankLoan) 7
  let v3 := ror32 (add32 v2 maxBankLoan) 3
  v3

/-! ## Chunked persistence pipeline (`S6Exporter::Save`), byte level

`Save` writes the chunk stream, queries the stream length, seeks to
position 0, reads the whole written range back, computes the Sawyer
checksum over exactly those bytes, seeks to the end and appends the
checksum as one little-endian `uint32`.  The stream and the checksum
routine are external collaborators; we model the stream as the list of
bytes written so far and keep the checksum function abstract. -/

/-- Little-endian encoding of the low 32 bits of `n` as four bytes,
as `IStream::WriteValue<uint32_t>` produces. -/
def toLE4 (n : Nat) : List Nat :=
  [n % 256, n / 256 % 256, n / 65536 % 256, n / 16777216 % 256]

/-- Little-endian decoding of a four-byte field. -/
def fromLE4 (bs : List Nat) : Nat :=
  match bs with
  | [a, b, c, d] => a % 256 + 256 * (b % 256) + 65536 * (c % 256) + 16777216 * (d % 256)
  | _ => 0

/-- Modelled from the spec: the byte-level effect of `S6Exporter::Save`
after all chunks have been emitted.  `chunkBytes` is the full byte range
the chunk writer produced (framing included); the routine reads it back
from position 0, applies the whole-buffer checksum and appends it as a
trailing little-endian `uint32`. -/
def saveStream (chunkBytes : List Nat) (checksum : List Nat → Nat) : List Nat :=
  chunkBytes ++ toLE4 (checksum chunkBytes)

/-! ## Pre-export integrity checks (`S6Exporter::Export`, lines 149-160) -/

/-- Outcome of the integrity-check phase at the top of `Export`. -/
inductive PrecheckOutcome where
  /-- An `openrct2_assert` fired: a cycle was found in the spatial index
  (`spatialList = true`) or in the type-partitioned sprite list. -/
  | fatalCycle (spatialList : Bool)
  /-- The checks passed; `loggedDisjoint` records whether disjoint null
  sprites were found (they are repaired and logged, never fatal). -/
  | proceed (loggedDisjoint : Bool)
  deriving DecidableEq

/-- Modelled from the spec: the control flow of the integrity-check phase
of `Export`.  `check_for_spatial_index_cycles` / `check_for_sprite_list_cycles`
return `-1` when no cycle exists, otherwise an index; `fix_disjoint_sprites`
returns the number of disjoint null sprites it repaired.  `openrct2_assert`
aborts the export when its condition is false (fatal precondition). -/
def exportPrecheck (spatialCycle regularCycle disjointCount : Int) : PrecheckOutcome :=
  if spatialCycle ≠ -1 then .fatalCycle true
  else if regularCycle ≠ -1 then .fatalCycle false
  else .proceed (decide (disjointCount > 0))

/-! ## Researched-flag bitsets (`ExportResearchedRideTypes`,
`ExportResearchedRideEntries`, `ExportResearchedSceneryItems`)

All three routines share one packing loop: clear the word array, then
for each index `i` in the domain with `invented(i)` set bit `i & 0x1F`
of word `i >> 5`.  We embed the loop generically over the domain size
`N` (`RIDE_TYPE_COUNT`, `MAX_RIDE_OBJECTS`,
`RCT2_MAX_RESEARCHED_SCENERY_ITEMS` respectively — constants from
headers outside `src/`) and the predicate, giving word `q` of the
output after the first `n` loop iterations. -/

/-- Word `q` of the packed researched bitset after processing indices
`0 .. n-1`: starting from the zero-filled array, each invented index `i`
ors `1 <<< (i % 32)` into word `i / 32` (`i >> 5`, `i & 0x1F` in the C).  -/
def exportResearchedBits (invented : Nat → Bool) : Nat → Nat → Nat
  | 0, _ => 0
  | n + 1, q =>
    let prev := exportResearchedBits invented n q
    if invented n && (n / 32 == q) then prev ||| 1 <<< (n % 32) else prev

/-! ## Peep spawns (`S6Exporter::ExportPeepSpawns`)

Live spawns are `CoordsXYZD` with 32-bit non-negative map coordinates;
the legacy record narrows `x`/`y` to `uint16_t` and stores `z / 16`
narrowed to `uint8_t`. -/

/-- A live peep spawn (map coordinates are non-negative). -/
structure PeepSpawn where
  x : Nat
  y : Nat
  z : Nat
  direction : Nat
  deriving DecidableEq

/-- A legacy peep-spawn record (`uint16 x, uint16 y, uint8 z, uint8 dir`). -/
structure RCT12PeepSpawn where
  x : Nat
  y : Nat
  z : Nat
  direction : Nat
  deriving DecidableEq

/-- Slot `i` of the exported peep-spawn table: if a live spawn exists it
is narrowed (`(uint16_t)x`, `(uint16_t)y`, `(uint8_t)(z / 16)`), else the
slot is filled with the `PEEP_SPAWN_UNDEFINED` sentinel. -/
def exportPeepSpawnSlot (spawns : List PeepSpawn) (i : Nat) : RCT12PeepSpawn :=
  match spawns.get? i with
  | some p => ⟨p.x % 65536, p.y % 65536, p.z / 16 % 256, p.direction⟩
  | none => ⟨PEEP_SPAWN_UNDEFINED, PEEP_SPAWN_UNDEFINED, 0, 0⟩

/-! ## Park entrances (`Export`, lines 333-344) -/

/-- A live park entrance (`CoordsXYZD`, signed 32-bit components). -/
structure CoordsXYZD where
  x : Int
  y : Int
  z : Int
  direction : Nat
  deriving DecidableEq

/-- One slot of the exported park-entrance arrays (`int16_t` x/y/z,
`uint8_t` direction). -/
structure ParkEntranceSlot where
  x : Int
  y : Int
  z : Int
  direction : Nat
  deriving DecidableEq

/-- Narrowing of a signed 32-bit value to `int16_t`. -/
def int16ofInt (v : Int) : Int := (v + 32768) % 65536 - 32768

/-- Slot `i` of the park-entrance arrays: the code starts from the
default `{ LOCATION_NULL, LOCATION_NULL, 0, 0 }` and overwrites it with
`gParkEntrances[i]` only when the live list is long enough. -/
def exportParkEntranceSlot (entrances : List CoordsXYZD) (i : Nat) : ParkEntranceSlot :=
  let e := match entrances.get? i with
    | some e => e
    | none => ⟨LOCATION_NULL, LOCATION_NULL, 0, 0⟩
  ⟨int16ofInt e.x, int16ofInt e.y, int16ofInt e.z, e.direction % 256⟩

/-! ## Ride export (`ExportRides` / `ExportRide`) -/

/-- A station entrance or exit location as `ride_get_entrance_location`
yields it: `none` when unset (`isNull()`), else non-negative tile
coordinates. -/
def exportStationXY8 : Option (Nat × Nat) → Nat
  | none => RCT_XY8_UNDEFINED
  | some (x, y) => x % 256 + 256 * (y % 256)

/-- The packed inversions byte (`ExportRide`, lines 561-565): low 5 bits
from `min(holes, RCT12_MAX_GOLF_HOLES)` for mini golf and
`min(inversions, RCT12_MAX_INVERSIONS)` otherwise, then
`|= sheltered_eighths << 5` stored into a `uint8_t` field. -/
def exportInversionsByte (rideType holes inversions shelteredEighths : Nat) : Nat :=
  let low := if rideType = RIDE_TYPE_MINI_GOLF then min holes RCT12_MAX_GOLF_HOLES
             else min inversions RCT12_MAX_INVERSIONS
  (low ||| shelteredEighths <<< 5) % 256

/-- The live `Ride` fields this development embeds (all byte-width fields
of the C struct are 8-bit, so the copies below are verbatim). -/
structure Ride where
  type : Nat
  subtype : Nat
  mode : Nat
  status : Nat
  holes : Nat
  inversions : Nat
  sheltered_eighths : Nat
  drops : Nat
  entranceLocs : List (Option (Nat × Nat))
  exitLocs : List (Option (Nat × Nat))
  deriving DecidableEq

/-- The corresponding fields of the legacy `rct2_ride` record. -/
structure RCT2Ride where
  type : Nat
  subtype : Nat
  mode : Nat
  status : Nat
  inversions : Nat
  drops : Nat
  measurement_index : Nat
  entrances : List Nat
  exits : List Nat
  deriving DecidableEq

/-- The zero-filled `rct2_ride` record (`*dst = {}` / `memset 0`). -/
def zeroRCT2Ride : RCT2Ride :=
  ⟨0, 0, 0, 0, 0, 0, 0,
   List.replicate RCT12_MAX_STATIONS_PER_RIDE 0,
   List.replicate RCT12_MAX_STATIONS_PER_RIDE 0⟩

/-- `S6Exporter::ExportRide` restricted to the embedded fields.  The
record is first zeroed; `measurement_index` is never assigned by
`ExportRide`, so it stays 0.  A station whose entrance/exit location is
null gets the `RCT_XY8_UNDEFINED` sentinel, otherwise the packed
`(uint8)x, (uint8)y` pair. -/
def exportRide (src : Ride) : RCT2Ride where
  type := src.type
  subtype := src.subtype
  mode := src.mode
  status := src.status
  inversions := exportInversionsByte src.type src.holes src.inversions src.sheltered_eighths
  drops := src.drops
  measurement_index := 0
  entrances := (List.range RCT12_MAX_STATIONS_PER_RIDE).map
    (fun i => exportStationXY8 (src.entranceLocs.getD i none))
  exits := (List.range RCT12_MAX_STATIONS_PER_RIDE).map
    (fun i => exportStationXY8 (src.exitLocs.getD i none))

/-- One iteration of the `ExportRides` loop: the slot is zeroed, then a
null-typed live ride yields only the sentinel type, any other ride is
exported in full. -/
def exportRideSlot (src : Ride) : RCT2Ride :=
  if src.type = RIDE_TYPE_NULL then { zeroRCT2Ride with type := RIDE_TYPE_NULL }
  else exportRide src

/-! ## Ride measurements (`S6Exporter::ExportRideMeasurements`)

The gather loop walks the ride pool in index order and collects every
live measurement; a measurement knows its owning ride
(`src->ride->id`, which is the pool index the gather found it at).  When
more than `RCT12_RIDE_MEASUREMENT_MAX_ITEMS` were collected, the vector
is sorted by strictly descending `last_use_tick` and resized down; the
surviving measurements fill table slots `0, 1, 2, ...` in that order and
each one's owner gets `measurement_index` set to its slot.  Rides whose
measurement was evicted are not touched again: their `measurement_index`
keeps the 0 that `ExportRides` zero-filled earlier. -/

/-- A live ride measurement as the gather step sees it: its recency tick
and the owning ride's pool index. -/
structure Measurement where
  last_use_tick : Nat
  rideId : Nat
  deriving DecidableEq

/-- The gather loop from pool index `i` on: slot `j` of the input list
says whether ride `i + j` currently owns a measurement and, if so, its
`last_use_tick`. -/
def gatherFrom : Nat → List (Option Nat) → List Measurement
  | _, [] => []
  | i, none :: rest => gatherFrom (i + 1) rest
  | i, some t :: rest => ⟨t, i⟩ :: gatherFrom (i + 1) rest

/-- All live measurements of the ride pool, in ride-index order
(`ExportRideMeasurements`, lines 690-698). -/
def gatherMeasurements (rides : List (Option Nat)) : List Measurement :=
  gatherFrom 0 rides

/-- The sort relation: `a` may precede `b` when `a` is at least as
recent.  The C comparator is the strict `a->last_use_tick >
b->last_use_tick`; under the pairwise-distinct ticks the claim assumes,
any `std::sort` result coincides with the unique
descending-by-`last_use_tick` permutation, which insertion sort by this
total preorder produces. -/
def moreRecent (a b : Measurement) : Prop :=
  b.last_use_tick ≤ a.last_use_tick

instance : DecidableRel moreRecent :=
  fun a b => Nat.decLe b.last_use_tick a.last_use_tick

instance : IsTotal Measurement moreRecent :=
  ⟨fun a b => Nat.le_total b.last_use_tick a.last_use_tick⟩

instance : IsTrans Measurement moreRecent :=
  ⟨fun _ _ _ hab hbc => Nat.le_trans hbc hab⟩

/-- The measurement list actually written to the table (lines 700-708):
if more were gathered than the table holds, sort by descending recency
and keep the first `RCT12_RIDE_MEASUREMENT_MAX_ITEMS` (`resize`
truncates); the element at position `j` fills table slot `j` and carries
`ride_index = rideId`. -/
def keptMeasurements (rides : List (Option Nat)) : List Measurement :=
  let ms := gatherMeasurements rides
  if ms.length > RCT12_RIDE_MEASUREMENT_MAX_ITEMS then
    (ms.insertionSort moreRecent).take RCT12_RIDE_MEASUREMENT_MAX_ITEMS
  else ms

/-- The write-back loop (lines 711-721), as the final value of one ride's
`measurement_index`: the `j`-th kept measurement's owner receives `j`;
any other ride keeps the 0 its zeroed record was left with by
`ExportRides` (gathered ride ids are pairwise distinct, so first match
and last write coincide). -/
def assignIndexFrom : Nat → List Measurement → Nat → Nat
  | _, [], _ => 0
  | i, m :: rest, r => if m.rideId = r then i else assignIndexFrom (i + 1) rest r

/-- The `measurement_index` of ride `r` after `ExportRideMeasurements`. -/
def measurementIndex (rides : List (Option Nat)) (r : Nat) : Nat :=
  assignIndexFrom 0 (keptMeasurements rides) r

/-- A concrete ride pool for the measurement-eviction analysis: nine
rides, all owning measurements, with strictly increasing recency. -/
def exMeasPool : List (Option Nat) :=
  [some 1, some 2, some 3, some 4, some 5, some 6, some 7, some 8, some 9]

/-! ## Save header and chunk sequence (`S6Exporter::Save`, lines 81-133) -/

/-- Modelled from the spec: header discriminant for a saved game
(`S6_TYPE_SAVEDGAME` from `S6.h`, outside `src/`; only its distinctness
from the scenario discriminant matters here). -/
def S6_TYPE_SAVEDGAME : Nat := 0x21

/-- Modelled from the spec: header discriminant for a scenario
(`S6_TYPE_SCENARIO` from `S6.h`, outside `src/`). -/
def S6_TYPE_SCENARIO : Nat := 0x22

/-- Modelled from the spec: the format version constant
(`S6_RCT2_VERSION` from `S6.h`, outside `src/`). -/
def S6_RCT2_VERSION : Nat := 120001

/-- Modelled from the spec: the magic-number constant
(`S6_MAGIC_NUMBER` from `S6.h`, outside `src/`). -/
def S6_MAGIC_NUMBER : Nat := 0x00031144

/-- The header fields `Save` assigns before writing any chunk. -/
structure S6Header where
  type : Nat
  classic_flag : Nat
  num_packed_objects : Nat
  version : Nat
  magic_number : Nat
  deriving DecidableEq

/-- `Save` lines 83-87: the header as a function of the save mode and the
size of `ExportObjectsList` (narrowed to `uint16_t`). -/
def saveHeader (isScenario : Bool) (numExportObjects : Nat) : S6Header where
  type := if isScenario then S6_TYPE_SCENARIO else S6_TYPE_SAVEDGAME
  classic_flag := 0
  num_packed_objects := numExportObjects % 65536
  version := S6_RCT2_VERSION
  magic_number := S6_MAGIC_NUMBER

/-- The distinct blocks `Save` can emit, in source order. -/
inductive ChunkTag where
  | header
  | scenarioInfo
  | packedObjects
  | objects
  | miscFields
  | tileElements
  | nextFreePointers
  | guestsInPark
  | lastGuestsInPark
  | parkRating
  | activeResearch
  | currentExpenditure
  | parkValue
  | completedCompanyValue
  | everythingElse
  deriving DecidableEq

/-- The eight chunks of the scenario tail (`Save` lines 120-127). -/
def scenarioTailTags : List ChunkTag :=
  [.nextFreePointers, .guestsInPark, .lastGuestsInPark, .parkRating,
   .activeResearch, .currentExpenditure, .parkValue, .completedCompanyValue]

/-- The block sequence `Save` emits: header chunk; the scenario-info chunk
iff the header type is the scenario discriminant; the packed-object blob
iff the packed-object count is non-zero; the object-identity, misc-field
and tile-element chunks; then either the scenario tail or the single
full-game chunk, again branching on the header type. -/
def saveChunkSequence (isScenario : Bool) (numExportObjects : Nat) : List ChunkTag :=
  let hdr := saveHeader isScenario numExportObjects
  [ChunkTag.header]
    ++ (if hdr.type = S6_TYPE_SCENARIO then [ChunkTag.scenarioInfo] else [])
    ++ (if hdr.num_packed_objects > 0 then [ChunkTag.packedObjects] else [])
    ++ [ChunkTag.objects, ChunkTag.miscFields, ChunkTag.tileElements]
    ++ (if hdr.type = S6_TYPE_SCENARIO then scenarioTailTags else [ChunkTag.everythingElse])

/-! ## Theorems -/

theorem fromLE4_toLE4 (n : Nat) : fromLE4 (toLE4 n) = n % two32 := by
  simp only [toLE4, fromLE4, two32]
  omega

/-- C2: after all chunks are written, `Save` reads the entire written byte
range back from position 0, computes the checksum over exactly those bytes
(all chunk framing included) and appends it as a trailing fixed-width
integer; hence recomputing the same checksum over the final file's bytes
excluding the trailing field reproduces the stored trailing value
(as a 32-bit value, the width of the stored field). -/
theorem save_checksum_roundtrip (chunkBytes : List Nat) (checksum : List Nat → Nat) :
    ((saveStream chunkBytes checksum).take ((saveStream chunkBytes checksum).length - 4)
        = chunkBytes) ∧
    fromLE4 ((saveStream chunkBytes checksum).drop ((saveStream chunkBytes checksum).length - 4))
        = checksum chunkBytes % two32 := by
  have hlen : (saveStream chunkBytes checksum).length = chunkBytes.length + 4 := by
    simp [saveStream, toLE4]
  constructor
  · rw [hlen]
    simp [saveStream]
  · rw [hlen]
    simp only [saveStream, Nat.add_sub_cancel, List.drop_left]
    exact fromLE4_toLE4 _

/-- C9: in the pre-export integrity check of `Export`, a cycle in either
entity-linkage ordering is a fatal precondition failure (the export does
not proceed past the check), while disjoint null sprites are non-fatal:
whenever both orderings are acyclic the export proceeds for every
disjoint count, logging exactly when the count is positive. -/
theorem export_precheck_policy (spatialCycle regularCycle disjointCount : Int) :
    ((spatialCycle ≠ -1 ∨ regularCycle ≠ -1) →
      ∀ b, exportPrecheck spatialCycle regularCycle disjointCount ≠ .proceed b) ∧
    (spatialCycle = -1 → regularCycle = -1 →
      exportPrecheck spatialCycle regularCycle disjointCount
        = .proceed (decide (disjointCount > 0))) := by
  constructor
  · intro h b
    rcases h with h | h
    · simp [exportPrecheck, h]
    · simp only [exportPrecheck]
      by_cases h2 : spatialCycle = -1 <;> simp [h, h2]
  · intro h1 h2
    simp [exportPrecheck, h1, h2]

/-- Witness for `export_precheck_policy`: with a cycle at index 3 in the
spatial index the export aborts; with both lists acyclic and 2 disjoint
sprites it proceeds and logs. -/
theorem export_precheck_policy_witness :
    (∀ b, exportPrecheck 3 (-1) 0 ≠ .proceed b) ∧
    exportPrecheck (-1) (-1) 2 = .proceed true := by
  refine ⟨(export_precheck_policy 3 (-1) 0).1 (by decide) , ?_⟩
  have h := (export_precheck_policy (-1) (-1) 2).2 rfl rfl
  simpa using h

theorem two32_eq_pow : two32 = 2 ^ 32 := by norm_num [two32]

theorem pow_mul_pow_32 {n : Nat} (hn : n ≤ 32) : 2 ^ (32 - n) * 2 ^ n = two32 := by
  rw [← pow_add, two32_eq_pow]
  congr 1
  omega

theorem ror32_div_lt {x n : Nat} (hx : x < two32) (hn : n ≤ 32) :
    x / 2 ^ n < 2 ^ (32 - n) :=
  Nat.div_lt_of_lt_mul (by rw [Nat.mul_comm, pow_mul_pow_32 hn]; exact hx)

theorem ror32_mod_comp {x n : Nat} (hx : x < two32) (hn : n ≤ 32) :
    ror32 x n % 2 ^ (32 - n) = x / 2 ^ n := by
  rw [ror32, Nat.mod_eq_of_lt hx, Nat.add_mul_mod_self_right]
  exact Nat.mod_eq_of_lt (ror32_div_lt hx hn)

theorem ror32_div_comp {x n : Nat} (hx : x < two32) (hn : n ≤ 32) :
    ror32 x n / 2 ^ (32 - n) = x % 2 ^ n := by
  rw [ror32, Nat.mod_eq_of_lt hx,
    Nat.add_mul_div_right _ _ (Nat.pos_pow_of_pos (32 - n) (by norm_num)),
    Nat.div_eq_of_lt (ror32_div_lt hx hn), Nat.zero_add]

theorem ror32_inj {x y : Nat} (n : Nat) (hx : x < two32) (hy : y < two32)
    (hn : n ≤ 32) (h : ror32 x n = ror32 y n) : x = y := by
  have h1 : x / 2 ^ n = y / 2 ^ n := by
    rw [← ror32_mod_comp hx hn, ← ror32_mod_comp hy hn, h]
  have h2 : x % 2 ^ n = y % 2 ^ n := by
    rw [← ror32_div_comp hx hn, ← ror32_div_comp hy hn, h]
  rw [← Nat.div_add_mod x (2 ^ n), ← Nat.div_add_mod y (2 ^ n), h1, h2]

theorem ror32_lt {x : Nat} (n : Nat) (hx : x < two32) (hn : n ≤ 32) :
    ror32 x n < two32 := by
  have h1 : x % two32 / 2 ^ n < 2 ^ (32 - n) := by
    rw [Nat.mod_eq_of_lt hx]
    exact ror32_div_lt hx hn
  have h2 : x % 2 ^ n < 2 ^ n := Nat.mod_lt _ (Nat.pos_pow_of_pos n (by norm_num))
  calc x % two32 / 2 ^ n + x % 2 ^ n * 2 ^ (32 - n)
      < 2 ^ (32 - n) + x % 2 ^ n * 2 ^ (32 - n) := Nat.add_lt_add_right h1 _
    _ = (x % 2 ^ n + 1) * 2 ^ (32 - n) := by ring
    _ ≤ 2 ^ n * 2 ^ (32 - n) := Nat.mul_le_mul_right _ h2
    _ = two32 := by rw [Nat.mul_comm]; exact pow_mul_pow_32 hn

theorem sub32_lt (a b : Nat) : sub32 a b < two32 :=
  Nat.mod_lt _ (by norm_num [two32])

theorem add32_lt (a b : Nat) : add32 a b < two32 :=
  Nat.mod_lt _ (by norm_num [two32])

theorem sub32_right_inj {a b b2 : Nat} (hb : b < two32) (hb2 : b2 < two32)
    (h : sub32 a b = sub32 a b2) : b = b2 := by
  simp only [sub32, two32] at h hb hb2
  omega

theorem add32_left_inj {a a2 b : Nat} (ha : a < two32) (ha2 : a2 < two32)
    (h : add32 a b = add32 a2 b) : a = a2 := by
  simp only [add32, two32] at h ha ha2
  omega

theorem add32_right_inj {a b b2 : Nat} (hb : b < two32) (hb2 : b2 < two32)
    (h : add32 a b = add32 a b2) : b = b2 := by
  simp only [add32, two32] at h hb hb2
  omega

theorem sub32_left_inj {a a2 b : Nat} (ha : a < two32) (ha2 : a2 < two32)
    (h : sub32 a b = sub32 a2 b) : a = a2 := by
  simp only [sub32, two32] at h ha ha2
  omega

/-- C7: `GetLoanHash` is the fixed sequence: seed `0x70093A`, subtract
`initialCash`, rotate right 5, subtract `bankLoan`, rotate right 7, add
`maxBankLoan`, rotate right 3, all in 32-bit arithmetic; it is a pure
deterministic function, and with the other two inputs held fixed,
changing any one 32-bit input changes the output. -/
theorem loan_hash_contract :
    (∀ a b c, GetLoanHash a b c
        = ror32 (add32 (ror32 (sub32 (ror32 (sub32 0x70093A a) 5) b) 7) c) 3) ∧
    (∀ a b c, GetLoanHash a b c = GetLoanHash a b c) ∧
    (∀ a a2 b c, a < two32 → a2 < two32 → a ≠ a2 →
      GetLoanHash a b c ≠ GetLoanHash a2 b c) ∧
    (∀ a b b2 c, b < two32 → b2 < two32 → b ≠ b2 →
      GetLoanHash a b c ≠ GetLoanHash a b2 c) ∧
    (∀ a b c c2, c < two32 → c2 < two32 → c ≠ c2 →
      GetLoanHash a b c ≠ GetLoanHash a b c2) := by
  refine ⟨fun a b c => rfl, fun a b c => rfl, ?_, ?_, ?_⟩
  · intro a a2 b c ha ha2 hne h
    apply hne
    simp only [GetLoanHash] at h
    have h1 := ror32_inj 3 (add32_lt _ _) (add32_lt _ _) (by norm_num) h
    have h2 := add32_left_inj (ror32_lt 7 (sub32_lt _ _) (by norm_num))
      (ror32_lt 7 (sub32_lt _ _) (by norm_num)) h1
    have h3 := ror32_inj 7 (sub32_lt _ _) (sub32_lt _ _) (by norm_num) h2
    have h4 := sub32_left_inj (ror32_lt 5 (sub32_lt _ _) (by norm_num))
      (ror32_lt 5 (sub32_lt _ _) (by norm_num)) h3
    have h5 := ror32_inj 5 (sub32_lt _ _) (sub32_lt _ _) (by norm_num) h4
    exact sub32_right_inj ha ha2 h5
  · intro a b b2 c hb hb2 hne h
    apply hne
    simp only [GetLoanHash] at h
    have h1 := ror32_inj 3 (add32_lt _ _) (add32_lt _ _) (by norm_num) h
    have h2 := add32_left_inj (ror32_lt 7 (sub32_lt _ _) (by norm_num))
      (ror32_lt 7 (sub32_lt _ _) (by norm_num)) h1
    have h3 := ror32_inj 7 (sub32_lt _ _) (sub32_lt _ _) (by norm_num) h2
    exact sub32_right_inj hb hb2 h3
  · intro a b c c2 hc hc2 hne h
    apply hne
    simp only [GetLoanHash] at h
    have h1 := ror32_inj 3 (add32_lt _ _) (add32_lt _ _) (by norm_num) h
    exact add32_right_inj hc hc2 h1

/-- C3: for a fixed assembled snapshot, `Save` with `isScenario = true`
versus `false` produces headers differing only in the type discriminant
(the classic flag is written as 0 in both, and packed-object count,
version and magic number are identical); the scenario-info chunk is
written iff `isScenario = true`; and exactly one of the two tail
variants is written, selected by `isScenario`, never both. -/
theorem save_mode_header_and_chunks (numExportObjects : Nat) :
    ((saveHeader true numExportObjects).type = S6_TYPE_SCENARIO ∧
     (saveHeader false numExportObjects).type = S6_TYPE_SAVEDGAME ∧
     S6_TYPE_SCENARIO ≠ S6_TYPE_SAVEDGAME ∧
     (saveHeader true numExportObjects).classic_flag = 0 ∧
     (saveHeader false numExportObjects).classic_flag = 0 ∧
     (saveHeader true numExportObjects).num_packed_objects
       = (saveHeader false numExportObjects).num_packed_objects ∧
     (saveHeader true numExportObjects).version
       = (saveHeader false numExportObjects).version ∧
     (saveHeader true numExportObjects).magic_number
       = (saveHeader false numExportObjects).magic_number) ∧
    (ChunkTag.scenarioInfo ∈ saveChunkSequence true numExportObjects ∧
     ChunkTag.scenarioInfo ∉ saveChunkSequence false numExportObjects) ∧
    ((∀ t ∈ scenarioTailTags, t ∈ saveChunkSequence true numExportObjects) ∧
     ChunkTag.everythingElse ∉ saveChunkSequence true numExportObjects ∧
     ChunkTag.everythingElse ∈ saveChunkSequence false numExportObjects ∧
     (∀ t ∈ scenarioTailTags, t ∉ saveChunkSequence false numExportObjects)) := by
  by_cases h : numExportObjects % 65536 > 0 <;>
    simp [saveHeader, saveChunkSequence, scenarioTailTags,
      S6_TYPE_SCENARIO, S6_TYPE_SAVEDGAME, h]

/-- Witness for `save_mode_header_and_chunks`: instantiated at a snapshot
with 3 packable objects, checking one scenario-tail tag concretely. -/
theorem save_mode_header_and_chunks_witness :
    ChunkTag.nextFreePointers ∈ scenarioTailTags ∧
    ChunkTag.nextFreePointers ∈ saveChunkSequence true 3 ∧
    ChunkTag.nextFreePointers ∉ saveChunkSequence false 3 := by
  have h := save_mode_header_and_chunks 3
  exact ⟨by decide, h.2.2.1 ChunkTag.nextFreePointers (by decide),
    h.2.2.2.2.2 ChunkTag.nextFreePointers (by decide)⟩

theorem lor_shift5 {low : Nat} (s : Nat) (hl : low < 32) :
    low ||| s <<< 5 = 32 * s + low := by
  rw [Nat.or_comm, Nat.shiftLeft_eq, Nat.mul_comm s (2 ^ 5),
    ← Nat.mul_add_lt_is_or (by norm_num; omega) s]

theorem exportInversionsByte_eq (t h inv s : Nat) :
    exportInversionsByte t h inv s
      = (32 * s + (if t = RIDE_TYPE_MINI_GOLF then min h RCT12_MAX_GOLF_HOLES
                   else min inv RCT12_MAX_INVERSIONS)) % 256 := by
  have hl : (if t = RIDE_TYPE_MINI_GOLF then min h RCT12_MAX_GOLF_HOLES
             else min inv RCT12_MAX_INVERSIONS) < 32 := by
    simp only [RCT12_MAX_GOLF_HOLES, RCT12_MAX_INVERSIONS]
    split <;> omega
  simp only [exportInversionsByte]
  rw [lor_shift5 _ hl]

/-- C10: in the packed inversions byte of an exported non-null ride, the
low 5 bits hold `min(holes, RCT12_MAX_GOLF_HOLES)` when the ride type is
mini golf and `min(inversions, RCT12_MAX_INVERSIONS)` otherwise (a
saturating clamp: counts at or above the maximum are stored as the
maximum), and the high 3 bits hold the ride's `sheltered_eighths` value
(shifted left by 5 in the byte). -/
theorem inversions_byte_packing (t h inv s : Nat) (hs : s < 8) :
    (exportInversionsByte t h inv s % 2 ^ 5
        = if t = RIDE_TYPE_MINI_GOLF then min h RCT12_MAX_GOLF_HOLES
          else min inv RCT12_MAX_INVERSIONS) ∧
    exportInversionsByte t h inv s / 2 ^ 5 = s ∧
    (RCT12_MAX_GOLF_HOLES ≤ h → t = RIDE_TYPE_MINI_GOLF →
        exportInversionsByte t h inv s % 2 ^ 5 = RCT12_MAX_GOLF_HOLES) ∧
    (RCT12_MAX_INVERSIONS ≤ inv → t ≠ RIDE_TYPE_MINI_GOLF →
        exportInversionsByte t h inv s % 2 ^ 5 = RCT12_MAX_INVERSIONS) := by
  rw [exportInversionsByte_eq]
  simp only [RCT12_MAX_GOLF_HOLES, RCT12_MAX_INVERSIONS]
  by_cases ht : t = RIDE_TYPE_MINI_GOLF
  · simp only [ht, if_true]
    exact ⟨by omega, by omega, fun _ _ => by omega, fun _ h2 => absurd rfl h2⟩
  · simp only [ht, if_false]
    exact ⟨by omega, by omega, fun _ h2 => h2.elim, fun _ _ => by omega⟩

/-- Witness for `inversions_byte_packing`: a non-mini-golf ride with 40
inversions and `sheltered_eighths = 3` packs as `32 * 3 + 31 = 127`. -/
theorem inversions_byte_packing_witness :
    (3 : Nat) < 8 ∧
    exportInversionsByte 0 0 40 3 % 2 ^ 5 = 31 ∧
    exportInversionsByte 0 0 40 3 / 2 ^ 5 = 3 := by
  have h := inversions_byte_packing 0 0 40 3 (by norm_num)
  refine ⟨by norm_num, ?_, h.2.1⟩
  have h4 := h.2.2.2 (by norm_num [RCT12_MAX_INVERSIONS]) (by decide)
  simpa [RCT12_MAX_INVERSIONS] using h4

/-- Counterexample for C4: the claim says every narrowing conversion
truncates to the legacy field width, but the inversion count (legacy
width 5 bits) is clamped: at `inversions = 40` the code stores 31 where
5-bit truncation would store 8. -/
theorem narrowing_policy_cex :
    exportInversionsByte 0 0 40 0 = 31 ∧
    (40 : Nat) % 2 ^ 5 = 8 ∧
    exportInversionsByte 0 0 40 0 ≠ 40 % 2 ^ 5 := by decide

/-- C4 as amended: the exporter's narrowing conversions are truncating
casts (as in the spawn coordinates, where `z` is divided by 16 and cast
down) except for the inversion/hole count, which is saturated at its
5-bit maximum before packing rather than truncated. -/
theorem narrowing_policy_amended :
    (∀ (spawns : List PeepSpawn) (p : PeepSpawn) (i : Nat), spawns.get? i = some p →
        exportPeepSpawnSlot spawns i
          = ⟨p.x % 2 ^ 16, p.y % 2 ^ 16, p.z / 16 % 2 ^ 8, p.direction⟩) ∧
    (∀ t h inv s, exportInversionsByte t h inv s % 2 ^ 5
        = if t = RIDE_TYPE_MINI_GOLF then min h RCT12_MAX_GOLF_HOLES
          else min inv RCT12_MAX_INVERSIONS) ∧
    (∀ t h inv s, RCT12_MAX_INVERSIONS ≤ inv → t ≠ RIDE_TYPE_MINI_GOLF →
        exportInversionsByte t h inv s % 2 ^ 5 = RCT12_MAX_INVERSIONS) := by
  refine ⟨?_, ?_, ?_⟩
  · intro spawns p i hp
    have hp2 : spawns[i]? = some p := by
      simpa [← List.get?_eq_getElem?] using hp
    simp [exportPeepSpawnSlot, hp2]
  · intro t h inv s
    rw [exportInversionsByte_eq]
    have hl : (if t = RIDE_TYPE_MINI_GOLF then min h RCT12_MAX_GOLF_HOLES
               else min inv RCT12_MAX_INVERSIONS) < 32 := by
      simp only [RCT12_MAX_GOLF_HOLES, RCT12_MAX_INVERSIONS]
      split <;> omega
    omega
  · intro t h inv s hge ht
    rw [exportInversionsByte_eq]
    simp only [ht, if_false, RCT12_MAX_INVERSIONS] at hge ⊢
    omega

/-- Witness for `narrowing_policy_amended`: a concrete spawn narrows by
truncation and a concrete oversized inversion count saturates. -/
theorem narrowing_policy_amended_witness :
    exportPeepSpawnSlot [⟨70000, 3, 100, 2⟩] 0 = ⟨4464, 3, 6, 2⟩ ∧
    exportInversionsByte 0 0 40 5 % 2 ^ 5 = RCT12_MAX_INVERSIONS := by
  constructor
  · have h := narrowing_policy_amended.1 [⟨70000, 3, 100, 2⟩] ⟨70000, 3, 100, 2⟩ 0 rfl
    simpa using h
  · exact narrowing_policy_amended.2.2 0 0 40 5 (by norm_num [RCT12_MAX_INVERSIONS])
      (by decide)

/-- C5: each fixed-capacity table slot with no corresponding live element
is written as its format-specific sentinel: peep-spawn slots beyond the
live spawn count get the `PEEP_SPAWN_UNDEFINED` coordinate sentinel,
park-entrance slots beyond the live entrance count get the
`LOCATION_NULL` coordinate sentinel, and a station entrance/exit that is
unset in live state is written as `RCT_XY8_UNDEFINED`, not as zero. -/
theorem unused_slot_sentinels :
    (∀ (spawns : List PeepSpawn) i, i < RCT12_MAX_PEEP_SPAWNS → spawns.length ≤ i →
        exportPeepSpawnSlot spawns i
          = ⟨PEEP_SPAWN_UNDEFINED, PEEP_SPAWN_UNDEFINED, 0, 0⟩) ∧
    (∀ (entrances : List CoordsXYZD) i, i < RCT12_MAX_PARK_ENTRANCES →
        entrances.length ≤ i →
        exportParkEntranceSlot entrances i = ⟨LOCATION_NULL, LOCATION_NULL, 0, 0⟩) ∧
    (∀ (src : Ride) i, i < RCT12_MAX_STATIONS_PER_RIDE →
        src.entranceLocs.getD i none = none →
        (exportRide src).entrances.getD i 0 = RCT_XY8_UNDEFINED) ∧
    (∀ (src : Ride) i, i < RCT12_MAX_STATIONS_PER_RIDE →
        src.exitLocs.getD i none = none →
        (exportRide src).exits.getD i 0 = RCT_XY8_UNDEFINED) := by
  refine ⟨?_, ?_, ?_, ?_⟩
  · intro spawns i _ hlen
    rw [exportPeepSpawnSlot, List.get?_eq_none.mpr hlen]
  · intro entrances i _ hlen
    rw [exportParkEntranceSlot, List.get?_eq_none.mpr hlen]
    decide
  · intro src i hi hnull
    simp only [RCT12_MAX_STATIONS_PER_RIDE] at hi
    rw [List.getD_eq_getElem?_getD] at hnull
    simp [exportRide, RCT12_MAX_STATIONS_PER_RIDE, List.getD_eq_getElem?_getD,
      List.getElem?_map, List.getElem?_range hi, hnull, exportStationXY8]
  · intro src i hi hnull
    simp only [RCT12_MAX_STATIONS_PER_RIDE] at hi
    rw [List.getD_eq_getElem?_getD] at hnull
    simp [exportRide, RCT12_MAX_STATIONS_PER_RIDE, List.getD_eq_getElem?_getD,
      List.getElem?_map, List.getElem?_range hi, hnull, exportStationXY8]

/-- Witness for `unused_slot_sentinels`: slot 1 of an empty spawn list,
slot 2 of an empty entrance list, and station 0 of a ride with an unset
entrance and exit all receive their sentinels. -/
theorem unused_slot_sentinels_witness :
    exportPeepSpawnSlot [] 1 = ⟨PEEP_SPAWN_UNDEFINED, PEEP_SPAWN_UNDEFINED, 0, 0⟩ ∧
    exportParkEntranceSlot [] 2 = ⟨LOCATION_NULL, LOCATION_NULL, 0, 0⟩ ∧
    (exportRide ⟨0, 0, 0, 0, 0, 0, 0, 0, [none], [none]⟩).entrances.getD 0 0
      = RCT_XY8_UNDEFINED ∧
    (exportRide ⟨0, 0, 0, 0, 0, 0, 0, 0, [none], [none]⟩).exits.getD 0 0
      = RCT_XY8_UNDEFINED := by
  refine ⟨unused_slot_sentinels.1 [] 1 (by decide) (by decide),
    unused_slot_sentinels.2.1 [] 2 (by decide) (by decide),
    unused_slot_sentinels.2.2.1 ⟨0, 0, 0, 0, 0, 0, 0, 0, [none], [none]⟩ 0
      (by decide) rfl,
    unused_slot_sentinels.2.2.2 ⟨0, 0, 0, 0, 0, 0, 0, 0, [none], [none]⟩ 0
      (by decide) rfl⟩

/-- C6: a ride slot whose live record has the null ride type is exported
as a zeroed record carrying only the sentinel in its type field; none of
the other (embedded) fields are populated from the live record. -/
theorem null_ride_slot (src : Ride) (h : src.type = RIDE_TYPE_NULL) :
    (exportRideSlot src).type = RIDE_TYPE_NULL ∧
    (exportRideSlot src).subtype = 0 ∧
    (exportRideSlot src).mode = 0 ∧
    (exportRideSlot src).status = 0 ∧
    (exportRideSlot src).inversions = 0 ∧
    (exportRideSlot src).drops = 0 ∧
    (exportRideSlot src).measurement_index = 0 ∧
    (exportRideSlot src).entrances = List.replicate RCT12_MAX_STATIONS_PER_RIDE 0 ∧
    (exportRideSlot src).exits = List.replicate RCT12_MAX_STATIONS_PER_RIDE 0 := by
  simp [exportRideSlot, h, zeroRCT2Ride]

/-- Witness for `null_ride_slot`: a live ride with type 255 and junk in
every other field exports as the all-zero record with sentinel type. -/
theorem null_ride_slot_witness :
    (Ride.mk 255 7 3 2 9 5 6 4 [some (1, 2)] [some (3, 4)]).type = RIDE_TYPE_NULL ∧
    (exportRideSlot (Ride.mk 255 7 3 2 9 5 6 4 [some (1, 2)] [some (3, 4)])).subtype = 0 ∧
    (exportRideSlot (Ride.mk 255 7 3 2 9 5 6 4 [some (1, 2)] [some (3, 4)])).inversions = 0 := by
  have h := null_ride_slot (Ride.mk 255 7 3 2 9 5 6 4 [some (1, 2)] [some (3, 4)])
    (by decide)
  exact ⟨by decide, h.2.1, h.2.2.2.2.1⟩

theorem exportResearchedBits_high (invented : Nat → Bool) :
    ∀ N q j, j < 32 → N ≤ 32 * q + j →
      Nat.testBit (exportResearchedBits invented N q) j = false := by
  intro N
  induction N with
  | zero => intro q j _ _; simp [exportResearchedBits]
  | succ n ih =>
    intro q j hj hN
    simp only [exportResearchedBits]
    by_cases hc : invented n && (n / 32 == q)
    · simp only [hc, if_true]
      rw [Nat.testBit_or, ih q j hj (by omega), Bool.false_or, Nat.one_shiftLeft]
      apply Nat.testBit_two_pow_of_ne
      intro heq
      have hq : n / 32 = q := by
        simpa using ((Bool.and_eq_true _ _).mp hc).2
      omega
    · simp only [hc, if_false]
      exact ih q j hj (by omega)

theorem exportResearchedBits_bit (invented : Nat → Bool) :
    ∀ N i, i < N →
      Nat.testBit (exportResearchedBits invented N (i / 32)) (i % 32) = invented i := by
  intro N
  induction N with
  | zero => intro i h; omega
  | succ n ih =>
    intro i hi
    simp only [exportResearchedBits]
    by_cases hin : i = n
    · subst hin
      by_cases hv : invented i
      · simp only [hv, Bool.true_and, beq_self_eq_true, if_true]
        rw [Nat.testBit_or, Nat.one_shiftLeft, Nat.testBit_two_pow_self, Bool.or_true]
      · have hv2 : invented i = false := by simpa using hv
        rw [if_neg (by simp [hv2])]
        rw [exportResearchedBits_high invented i (i / 32) (i % 32) (by omega) (by omega), hv2]
    · have hlt : i < n := by omega
      by_cases hc : invented n && (n / 32 == i / 32)
      · simp only [hc, if_true]
        rw [Nat.testBit_or, ih i hlt, Nat.one_shiftLeft]
        have hq : n / 32 = i / 32 := by
          simpa using ((Bool.and_eq_true _ _).mp hc).2
        rw [Nat.testBit_two_pow_of_ne (by omega)]
        exact Bool.or_false _
      · simp only [hc, if_false]
        exact ih i hlt

/-- C8: for every researched-flag bitset export with domain size `N` and
predicate `invented`, bit `i % 32` of 32-bit word `i / 32` of the output
is set iff `invented i` holds, for every `i < N`; and every bit position
`(q, j)` at or beyond `N` (trailing bits of the last word and all bits
of any later word) is zero. -/
theorem researched_bitset_pack (N : Nat) (invented : Nat → Bool) :
    (∀ i, i < N →
      Nat.testBit (exportResearchedBits invented N (i / 32)) (i % 32) = invented i) ∧
    (∀ q j, j < 32 → N ≤ 32 * q + j →
      Nat.testBit (exportResearchedBits invented N q) j = false) :=
  ⟨fun i hi => exportResearchedBits_bit invented N i hi,
   fun q j hj hN => exportResearchedBits_high invented N q j hj hN⟩

/-- Witness for `researched_bitset_pack`: domain size 40 with the
multiples-of-3 predicate; bit 33 of word 1 reflects the predicate, and
the trailing bit 9 of word 1 and word 2 are zero. -/
theorem researched_bitset_pack_witness :
    Nat.testBit (exportResearchedBits (fun i => i % 3 == 0) 40 1) 1 = true ∧
    Nat.testBit (exportResearchedBits (fun i => i % 3 == 0) 40 1) 2 = false ∧
    Nat.testBit (exportResearchedBits (fun i => i % 3 == 0) 40 1) 9 = false ∧
    Nat.testBit (exportResearchedBits (fun i => i % 3 == 0) 40 2) 0 = false := by
  have h := researched_bitset_pack 40 (fun i => i % 3 == 0)
  refine ⟨?_, ?_, ?_, ?_⟩
  · have := h.1 33 (by norm_num)
    simpa using this
  · have := h.1 34 (by norm_num)
    simpa using this
  · exact h.2 1 9 (by norm_num) (by norm_num)
  · exact h.2 2 0 (by norm_num) (by norm_num)

/-- Witness for `loan_hash_contract`: concrete 32-bit inputs differing in
exactly one component give different hashes. -/
theorem loan_hash_contract_witness :
    (100 : Nat) < two32 ∧ (101 : Nat) < two32 ∧ (200 : Nat) < two32 ∧
    (201 : Nat) < two32 ∧ (300 : Nat) < two32 ∧ (301 : Nat) < two32 ∧
    GetLoanHash 100 200 300 ≠ GetLoanHash 101 200 300 ∧
    GetLoanHash 100 200 300 ≠ GetLoanHash 100 201 300 ∧
    GetLoanHash 100 200 300 ≠ GetLoanHash 100 200 301 := by
  refine ⟨by norm_num [two32], by norm_num [two32], by norm_num [two32],
    by norm_num [two32], by norm_num [two32], by norm_num [two32], ?_, ?_, ?_⟩
  · exact loan_hash_contract.2.2.1 100 101 200 300
      (by norm_num [two32]) (by norm_num [two32]) (by norm_num)
  · exact loan_hash_contract.2.2.2.1 100 200 201 300
      (by norm_num [two32]) (by norm_num [two32]) (by norm_num)
  · exact loan_hash_contract.2.2.2.2 100 200 300 301
      (by norm_num [two32]) (by norm_num [two32]) (by norm_num)

theorem gatherFrom_le (rs : List (Option Nat)) :
    ∀ i, ∀ m ∈ gatherFrom i rs, i ≤ m.rideId := by
  induction rs with
  | nil => intro i m hm; simp [gatherFrom] at hm
  | cons o rest ih =>
    intro i m hm
    cases o with
    | none =>
      have := ih (i + 1) m (by simpa [gatherFrom] using hm)
      omega
    | some t =>
      rcases List.mem_cons.mp (by simpa [gatherFrom] using hm) with h | h
      · subst h
        exact Nat.le_refl _
      · have := ih (i + 1) m h
        omega

theorem gatherFrom_pairwise (rs : List (Option Nat)) :
    ∀ i, (gatherFrom i rs).Pairwise (fun a b => a.rideId < b.rideId) := by
  induction rs with
  | nil => intro i; simp [gatherFrom]
  | cons o rest ih =>
    intro i
    cases o with
    | none => simpa [gatherFrom] using ih (i + 1)
    | some t =>
      simp only [gatherFrom]
      refine List.Pairwise.cons ?_ (ih (i + 1))
      intro b hb
      have := gatherFrom_le rest (i + 1) b hb
      show i < b.rideId
      omega

theorem gather_rideIds_nodup (rides : List (Option Nat)) :
    ((gatherMeasurements rides).map Measurement.rideId).Nodup := by
  have h := gatherFrom_pairwise rides 0
  exact List.pairwise_map.mpr (h.imp fun hab => Nat.ne_of_lt hab)

theorem assignIndexFrom_get (l : List Measurement)
    (hnd : (l.map Measurement.rideId).Nodup) :
    ∀ i j (hj : j < l.length),
      assignIndexFrom i l ((l.get ⟨j, hj⟩).rideId) = i + j := by
  induction l with
  | nil => intro i j hj; simp at hj
  | cons m rest ih =>
    intro i j hj
    cases j with
    | zero => simp [assignIndexFrom]
    | succ j2 =>
      have hj2 : j2 < rest.length := by simpa using hj
      have hmem : rest.get ⟨j2, hj2⟩ ∈ rest := rest.get_mem _ _
      have hnd2 : (m.rideId :: rest.map Measurement.rideId).Nodup := by
        simpa using hnd
      have hne : m.rideId ≠ (rest.get ⟨j2, hj2⟩).rideId := by
        intro he
        exact (List.nodup_cons.mp hnd2).1
          (he ▸ List.mem_map_of_mem Measurement.rideId hmem)
      have hgets : ((m :: rest).get ⟨j2 + 1, hj⟩) = rest.get ⟨j2, hj2⟩ := rfl
      rw [hgets]
      show (if m.rideId = (rest.get ⟨j2, hj2⟩).rideId then i
            else assignIndexFrom (i + 1) rest (rest.get ⟨j2, hj2⟩).rideId) = i + (j2 + 1)
      rw [if_neg hne, ih (List.nodup_cons.mp hnd2).2 (i + 1) j2 hj2]
      omega

theorem assignIndexFrom_zero (l : List Measurement) (r : Nat)
    (h : ∀ m ∈ l, m.rideId ≠ r) : ∀ i, assignIndexFrom i l r = 0 := by
  induction l with
  | nil => intro i; rfl
  | cons m rest ih =>
    intro i
    show (if m.rideId = r then i else assignIndexFrom (i + 1) rest r) = 0
    rw [if_neg (h m (List.mem_cons_self m rest))]
    exact ih (fun m2 hm2 => h m2 (List.mem_cons_of_mem m hm2)) (i + 1)

/-- C1 as amended: when more measurements exist than the table holds and
their recency ticks are pairwise distinct, the exported table holds
exactly `RCT12_RIDE_MEASUREMENT_MAX_ITEMS` of the gathered samples; every
evicted sample is strictly older than every kept one (so the kept ones
are exactly the most recent); the kept samples appear in order of
descending recency (not in their original relative order); slot `j`'s
sample carries its owner's index and that owner's `measurement_index`
equals `j`; and every evicted sample's owner keeps `measurement_index`
0, the value `ExportRides` zero-filled (no "none" sentinel is written). -/
theorem ride_measurements_lru (rides : List (Option Nat))
    (hdist : ((gatherMeasurements rides).map Measurement.last_use_tick).Nodup)
    (hK : RCT12_RIDE_MEASUREMENT_MAX_ITEMS < (gatherMeasurements rides).length) :
    (keptMeasurements rides).length = RCT12_RIDE_MEASUREMENT_MAX_ITEMS ∧
    (∀ m ∈ keptMeasurements rides, m ∈ gatherMeasurements rides) ∧
    (∀ m2 ∈ gatherMeasurements rides, m2 ∉ keptMeasurements rides →
      ∀ m ∈ keptMeasurements rides, m2.last_use_tick < m.last_use_tick) ∧
    (keptMeasurements rides).Sorted moreRecent ∧
    (∀ j (hj : j < (keptMeasurements rides).length),
      measurementIndex rides (((keptMeasurements rides).get ⟨j, hj⟩).rideId) = j) ∧
    (∀ m2 ∈ gatherMeasurements rides, m2 ∉ keptMeasurements rides →
      measurementIndex rides m2.rideId = 0) := by
  have hkept : keptMeasurements rides
      = ((gatherMeasurements rides).insertionSort moreRecent).take
          RCT12_RIDE_MEASUREMENT_MAX_ITEMS := by
    simp only [keptMeasurements]
    rw [if_pos hK]
  have hperm : ((gatherMeasurements rides).insertionSort moreRecent).Perm
      (gatherMeasurements rides) := List.perm_insertionSort moreRecent _
  have hpw : ((gatherMeasurements rides).insertionSort moreRecent).Pairwise moreRecent :=
    List.sorted_insertionSort moreRecent _
  have hsub : List.Sublist (keptMeasurements rides)
      ((gatherMeasurements rides).insertionSort moreRecent) := by
    rw [hkept]
    exact List.take_sublist _ _
  have hmemg : ∀ m ∈ keptMeasurements rides, m ∈ gatherMeasurements rides :=
    fun m hm => hperm.mem_iff.mp (hsub.subset hm)
  have hsplit := List.take_append_drop RCT12_RIDE_MEASUREMENT_MAX_ITEMS
    ((gatherMeasurements rides).insertionSort moreRecent)
  have hcross : ∀ a ∈ ((gatherMeasurements rides).insertionSort moreRecent).take
      RCT12_RIDE_MEASUREMENT_MAX_ITEMS,
      ∀ b ∈ ((gatherMeasurements rides).insertionSort moreRecent).drop
      RCT12_RIDE_MEASUREMENT_MAX_ITEMS, moreRecent a b := by
    have hpw2 := hpw
    rw [← hsplit] at hpw2
    exact (List.pairwise_append.mp hpw2).2.2
  have hticks : (((gatherMeasurements rides).insertionSort moreRecent).map
      Measurement.last_use_tick).Nodup := ((hperm.map _).nodup_iff).mpr hdist
  have hgnodup := gather_rideIds_nodup rides
  have hsnodup : (((gatherMeasurements rides).insertionSort moreRecent).map
      Measurement.rideId).Nodup := ((hperm.map _).nodup_iff).mpr hgnodup
  have hknodup : ((keptMeasurements rides).map Measurement.rideId).Nodup :=
    hsnodup.sublist (hsub.map _)
  refine ⟨?_, hmemg, ?_, ?_, ?_, ?_⟩
  · rw [hkept, List.length_take, hperm.length_eq]
    omega
  · intro m2 hm2g hm2k m hmk
    have hm2s : m2 ∈ (gatherMeasurements rides).insertionSort moreRecent :=
      hperm.mem_iff.mpr hm2g
    have hms : m ∈ (gatherMeasurements rides).insertionSort moreRecent :=
      hsub.subset hmk
    have hm2drop : m2 ∈ ((gatherMeasurements rides).insertionSort moreRecent).drop
        RCT12_RIDE_MEASUREMENT_MAX_ITEMS := by
      have hm2app : m2 ∈ ((gatherMeasurements rides).insertionSort moreRecent).take
          RCT12_RIDE_MEASUREMENT_MAX_ITEMS
          ++ ((gatherMeasurements rides).insertionSort moreRecent).drop
          RCT12_RIDE_MEASUREMENT_MAX_ITEMS := by
        rw [hsplit]
        exact hm2s
      rcases List.mem_append.mp hm2app with h | h
      · exact absurd (by rw [hkept]; exact h) hm2k
      · exact h
    have hle : m2.last_use_tick ≤ m.last_use_tick :=
      hcross m (by rw [← hkept]; exact hmk) m2 hm2drop
    have hne2 : m2.last_use_tick ≠ m.last_use_tick := by
      intro he
      have heq := List.inj_on_of_nodup_map hticks hm2s hms he
      rw [heq] at hm2k
      exact hm2k hmk
    exact Nat.lt_of_le_of_ne hle hne2
  · exact hpw.sublist hsub
  · intro j hj
    have h := assignIndexFrom_get (keptMeasurements rides) hknodup 0 j hj
    simpa [measurementIndex] using h
  · intro m2 hm2g hm2k
    have hneed : ∀ m ∈ keptMeasurements rides, m.rideId ≠ m2.rideId := by
      intro m hmk he
      have heq := List.inj_on_of_nodup_map hgnodup (hmemg m hmk) hm2g he
      rw [← heq] at hm2k
      exact hm2k hmk
    simpa [measurementIndex] using
      assignIndexFrom_zero (keptMeasurements rides) m2.rideId hneed 0

/-- Counterexample for C1 as stated: with nine measurements of strictly
increasing recency, the eight kept samples appear in descending-recency
order `[8, 7, ..., 1]`, which is not a subsequence of the original
order, refuting "in their original relative order"; moreover the evicted
ride 0 ends with `measurement_index = 0`, the same value as kept ride
8's valid slot 0 back-reference, so no "none" sentinel distinct from
valid slots is written for evicted owners. -/
theorem ride_measurements_order_cex :
    ((keptMeasurements exMeasPool).map Measurement.rideId = [8, 7, 6, 5, 4, 3, 2, 1]) ∧
    ¬ List.Sublist (keptMeasurements exMeasPool) (gatherMeasurements exMeasPool) ∧
    measurementIndex exMeasPool 8 = 0 ∧
    measurementIndex exMeasPool 0 = 0 := by
  refine ⟨by decide, ?_, by decide, by decide⟩
  intro hsub
  have hp : (gatherMeasurements exMeasPool).Pairwise (fun a b => a.rideId < b.rideId) := by
    decide
  have hk := hp.sublist hsub
  revert hk
  decide

/-- Witness for `ride_measurements_lru`: the nine-measurement pool
satisfies the hypotheses, and the theorem yields the table length and
descending order concretely. -/
theorem ride_measurements_lru_witness :
    ((gatherMeasurements exMeasPool).map Measurement.last_use_tick).Nodup ∧
    RCT12_RIDE_MEASUREMENT_MAX_ITEMS < (gatherMeasurements exMeasPool).length ∧
    (keptMeasurements exMeasPool).length = RCT12_RIDE_MEASUREMENT_MAX_ITEMS ∧
    (keptMeasurements exMeasPool).Sorted moreRecent := by
  have h := ride_measurements_lru exMeasPool (by decide) (by decide)
  exact ⟨by decide, by decide, h.1, h.2.2.2.1⟩

end S6
